import Mathlib

/-!
Verification of the MarketDex merchant package (rotation engine, purchase
engine, autocomplete) against its natural-language specification.

The Python source (`merchant/cog.py`, `merchant/models.py`) is shallowly
embedded below.  Database tables become lists of rows inside `DBState`;
`timezone.now()` becomes an explicit `now : Int` parameter (seconds);
Django durations become second counts; the randomness of
`random.choices` becomes an explicit stream `rand : Nat → Nat` of draws,
each reduced modulo the total weight of the remaining pool (mirroring the
cumulative-weight selection of `random.choices`).  Concurrent commits that
may land between the optimistic affordability check and the
`transaction.atomic` block are modelled by an explicit interference
function applied to the state at the transaction boundary.
-/

namespace MarketDex

/-- `MerchantSettings` row (`merchant/models.py`).  `rotation_minutes`,
`items_per_rotation` and `purchase_cooldown_seconds` are Django
positive-integer fields, i.e. arbitrary non-negative integers. -/
structure MerchantSettings where
  enabled : Bool
  rotation_minutes : Nat
  items_per_rotation : Nat
  purchase_cooldown_seconds : Nat
  last_rotation_at : Option Int
deriving DecidableEq, Repr

/-- `MerchantSettings.rotation_delta`: `timedelta(minutes=rotation_minutes)`,
in seconds. -/
def MerchantSettings.rotation_delta (c : MerchantSettings) : Int :=
  60 * (c.rotation_minutes : Int)

/-- `MerchantSettings.purchase_cooldown`:
`timedelta(seconds=purchase_cooldown_seconds)`, in seconds. -/
def MerchantSettings.purchase_cooldown (c : MerchantSettings) : Int :=
  (c.purchase_cooldown_seconds : Int)

/-- A `Ball` row of the host bot, reduced to the fields the merchant
reads (`label` falls back to `ball.country`). -/
structure Ball where
  id : Nat
  country : String
deriving DecidableEq, Repr

/-- `MerchantItem` row: the configurable item pool entry.  `price` and
`weight` are Django positive-integer fields (non-negative). -/
structure MerchantItem where
  id : Nat
  display_name : String
  price : Nat
  weight : Nat
  enabled : Bool
  ball_id : Nat
  special_id : Option Nat
deriving DecidableEq, Repr

/-- `MerchantRotation` row. -/
structure MerchantRotation where
  id : Nat
  starts_at : Int
  ends_at : Int
deriving DecidableEq, Repr

/-- `MerchantRotationItem` row: snapshot of an offer inside a rotation. -/
structure MerchantRotationItem where
  id : Nat
  rotation_id : Nat
  item_id : Nat
  price_snapshot : Nat
  created_at : Int
deriving DecidableEq, Repr

/-- `MerchantPurchase` row: append-only purchase record. -/
structure MerchantPurchase where
  id : Nat
  player_id : Nat
  rotation_item_id : Nat
  created_at : Int
deriving DecidableEq, Repr

/-- Modelled from the spec: the ledger account of the external
player/currency subsystem (`getOrCreateAccount(userId) -> Account{balance}`).
The `Player` model itself lives in the host bot (`bd_models`), outside this
repository, so only the contract of section 6 of the spec is modelled:
an account keyed by the Discord user id carrying an integer balance. -/
structure Player where
  discord_id : Nat
  balance : Int
deriving DecidableEq, Repr

/-- `BallInstance` row minted by the external collectible service,
reduced to the fields the purchase engine writes. -/
structure BallInstance where
  id : Nat
  ball_id : Nat
  player_id : Nat
  special_id : Option Nat
  tradeable : Bool
  server_id : Nat
deriving DecidableEq, Repr

/-- The database state seen by the cog: one row list per table, the
settings singleton (`MerchantSettings.load` keeps exactly one logical
instance alive), and the next fresh primary key. -/
structure DBState where
  settings : MerchantSettings
  balls : List Ball
  items : List MerchantItem
  rotations : List MerchantRotation
  rotationItems : List MerchantRotationItem
  purchases : List MerchantPurchase
  players : List Player
  ballInstances : List BallInstance
  next_id : Nat
deriving DecidableEq, Repr

/-! ### Rotation engine -/

/-- Insertion step for the `order_by("id")` of the enabled-item query. -/
def insertById (x : MerchantItem) : List MerchantItem → List MerchantItem
  | [] => [x]
  | y :: ys => if x.id ≤ y.id then x :: y :: ys else y :: insertById x ys

/-- `MerchantItem.objects.filter(enabled=True).order_by("id")`:
sorting by primary key. -/
def sortById (l : List MerchantItem) : List MerchantItem :=
  l.foldr insertById []

/-- Effective selection weight: `max(1, i.weight)` (cog line 125). -/
def itemWeight (i : MerchantItem) : Nat := max 1 i.weight

/-- Total effective weight of a pool, the modulus of one `random.choices`
draw. -/
def totalWeight (pool : List MerchantItem) : Nat :=
  (pool.map itemWeight).sum

/-- One draw of `random.choices(pool, weights, k=1)`: walk the cumulative
weights with the reduced random value `r`. -/
def pickByWeight : List MerchantItem → Nat → Option MerchantItem
  | [], _ => none
  | i :: rest, r =>
    if r < itemWeight i then some i else pickByWeight rest (r - itemWeight i)

/-- `Merchant._weighted_sample(items, k)`: repeatedly draw one item with
probability proportional to `max(1, weight)`, remove it from the pool
(`pool.remove(pick)`), until `k` items are chosen or the pool is empty.
The random stream is indexed by the draw counter `step`. -/
def weighted_sample (rand : Nat → Nat) : Nat → List MerchantItem → Nat → List MerchantItem
  | _, _, 0 => []
  | _, [], _ => []
  | step, i :: rest, k + 1 =>
    match pickByWeight (i :: rest) (rand step % totalWeight (i :: rest)) with
    | none => []
    | some pick => pick :: weighted_sample rand (step + 1) ((i :: rest).erase pick) k

/-- The `ORDER BY starts_at DESC LIMIT 1` of
`Merchant._get_active_rotation`: the element with maximal `starts_at`
(first listed wins ties, as the database order on ties is unspecified). -/
def bestRotation : List MerchantRotation → Option MerchantRotation
  | [] => none
  | r :: rest =>
    match bestRotation rest with
    | none => some r
    | some b => some (if r.starts_at < b.starts_at then b else r)

/-- `Merchant._get_active_rotation`: most recently started rotation with
`ends_at` strictly greater than now; `none` when there is none. -/
def get_active_rotation (s : DBState) (now : Int) : Option MerchantRotation :=
  bestRotation (s.rotations.filter (fun r => decide (now < r.ends_at)))

/-- The rows built by the `abulk_create` of `Merchant._create_rotation`:
one `MerchantRotationItem` per selected item, with `price_snapshot`
copied from the item's current price, consecutive fresh ids. -/
def mkRotationEntries (rid : Nat) (now : Int) : Nat → List MerchantItem → List MerchantRotationItem
  | _, [] => []
  | nid, it :: rest =>
    { id := nid, rotation_id := rid, item_id := it.id,
      price_snapshot := it.price, created_at := now }
      :: mkRotationEntries rid now (nid + 1) rest

/-- `Merchant._create_rotation(config)`: load the enabled pool ordered by
id; abort on an empty pool; sample `min(items_per_rotation, poolSize)`
items; create the rotation row (`starts_at = now`,
`ends_at = now + rotation_delta`), its entries, and update the settings
singleton's `last_rotation_at`. -/
def create_rotation (s : DBState) (config : MerchantSettings) (now : Int)
    (rand : Nat → Nat) : Option MerchantRotation × DBState :=
  match sortById (s.items.filter (fun i => i.enabled)) with
  | [] => (none, s)
  | it :: rest =>
    let pool := it :: rest
    let count := min config.items_per_rotation pool.length
    let selection := weighted_sample rand 0 pool count
    let rot : MerchantRotation :=
      { id := s.next_id, starts_at := now, ends_at := now + config.rotation_delta }
    let entries := mkRotationEntries rot.id now (s.next_id + 1) selection
    (some rot,
      { s with
        settings := { s.settings with last_rotation_at := some now }
        rotations := s.rotations ++ [rot]
        rotationItems := s.rotationItems ++ entries
        next_id := s.next_id + 1 + selection.length })

/-- `Merchant.ensure_rotation`: under the rotation lock, load the config;
return `none` when disabled; reuse the active rotation when one is still
valid; otherwise create a fresh one. -/
def ensure_rotation (s : DBState) (now : Int) (rand : Nat → Nat) :
    Option MerchantRotation × DBState :=
  let config := s.settings
  if config.enabled then
    match get_active_rotation s now with
    | some rot =>
      if now < rot.ends_at then (some rot, s) else create_rotation s config now rand
    | none => create_rotation s config now rand
  else (none, s)

/-! ### Purchase engine -/

/-- `Merchant._rotation_items(rotation)`: the rotation's entries joined
with their `MerchantItem` rows (the `select_related` inner join). -/
def rotation_items (s : DBState) (rid : Nat) : List (MerchantRotationItem × MerchantItem) :=
  (s.rotationItems.filter (fun e => e.rotation_id == rid)).filterMap
    (fun e => (s.items.find? (fun i => i.id == e.item_id)).map (fun i => (e, i)))

/-- The `next((e for e in entries if e.id == item_id), None)` of
`Merchant.buy`. -/
def find_offer (s : DBState) (rid : Nat) (item_id : Nat) :
    Option (MerchantRotationItem × MerchantItem) :=
  (rotation_items s rid).find? (fun pr => pr.1.id == item_id)

/-- The most-recent-purchase extraction of `Merchant._cooldown_remaining`:
`ORDER BY created_at DESC LIMIT 1` over one player's records. -/
def latestOf : List MerchantPurchase → Option MerchantPurchase
  | [] => none
  | p :: rest =>
    match latestOf rest with
    | none => some p
    | some b => some (if p.created_at < b.created_at then b else p)

/-- The most recent `MerchantPurchase` of one player. -/
def latest_purchase (s : DBState) (uid : Nat) : Option MerchantPurchase :=
  latestOf (s.purchases.filter (fun p => p.player_id == uid))

/-- `Merchant._cooldown_remaining(player, cooldown)`: zero when the player
has no purchase record, otherwise
`max(last.created_at + cooldown - now, 0)`. -/
def cooldown_remaining (s : DBState) (uid : Nat) (cooldown : Int) (now : Int) : Int :=
  match latest_purchase s uid with
  | none => 0
  | some p => max (p.created_at + cooldown - now) 0

/-- Lookup of a player row by Discord id. -/
def find_player (s : DBState) (uid : Nat) : Option Player :=
  s.players.find? (fun p => p.discord_id == uid)

/-- Modelled from the spec: `getOrCreateAccount(userId)` of the external
ledger contract (`Player.objects.aget_or_create` in the source); a fresh
account starts with an empty balance. -/
def get_or_create_player (s : DBState) (uid : Nat) : Player × DBState :=
  match find_player s uid with
  | some p => (p, s)
  | none =>
    let p : Player := { discord_id := uid, balance := 0 }
    (p, { s with players := s.players ++ [p] })

/-- Balance of a player row, zero when absent. -/
def balance_of (s : DBState) (uid : Nat) : Int :=
  ((find_player s uid).map Player.balance).getD 0

/-- Modelled from the spec: `accountCanAfford(account, amount)` is
`balance ≥ amount` (`player.can_afford(price)` in the source). -/
def can_afford (p : Player) (price : Nat) : Bool :=
  decide ((price : Int) ≤ p.balance)

/-- Modelled from the spec: `debit(account, amount)` subtracts the amount
from the account's balance (`player.remove_money(price)` in the source). -/
def remove_money (s : DBState) (uid : Nat) (price : Nat) : DBState :=
  { s with players := s.players.map (fun p =>
      if p.discord_id == uid then { p with balance := p.balance - (price : Int) } else p) }

/-- Outcomes of `Merchant.buy`, one per user-facing message. -/
inductive BuyOutcome where
  | disabled
  | noActiveRotation
  | unknownOffer
  | onCooldown (ready_at : Int)
  | insufficientFunds
  | success (instance_id : Nat)
deriving DecidableEq, Repr

/-- Whether an outcome is the successful purchase. -/
def BuyOutcome.isSuccess : BuyOutcome → Bool
  | .success _ => true
  | _ => false

/-- Whether an outcome is the cooldown rejection. -/
def BuyOutcome.isOnCooldown : BuyOutcome → Bool
  | .onCooldown _ => true
  | _ => false

/-- The `transaction.atomic` block of `Merchant.buy`: re-fetch the player
under the row lock, re-verify affordability, debit, mint the collectible
instance, append the purchase record.  A failed re-check aborts with the
state untouched. -/
def buy_tx (s : DBState) (uid : Nat) (entry : MerchantRotationItem)
    (item : MerchantItem) (now : Int) (server_id : Nat) : BuyOutcome × DBState :=
  let bal := balance_of s uid
  if bal < (entry.price_snapshot : Int) then (.insufficientFunds, s)
  else
    let s1 := remove_money s uid entry.price_snapshot
    let inst : BallInstance :=
      { id := s1.next_id, ball_id := item.ball_id, player_id := uid,
        special_id := item.special_id, tradeable := true, server_id := server_id }
    let s2 := { s1 with ballInstances := s1.ballInstances ++ [inst], next_id := s1.next_id + 1 }
    let record : MerchantPurchase :=
      { id := s2.next_id, player_id := uid, rotation_item_id := entry.id, created_at := now }
    (.success inst.id,
      { s2 with purchases := s2.purchases ++ [record], next_id := s2.next_id + 1 })

/-- `Merchant.buy`: the full pipeline of checks (enabled, active rotation,
known offer, cooldown, optimistic affordability) followed by the atomic
transactional phase.  `interfere` is the state change committed by other
requests between the optimistic check and the acquisition of the row
lock; `rand` feeds a possible rotation creation. -/
def buy (s : DBState) (uid : Nat) (item_id : Nat) (now : Int) (server_id : Nat)
    (rand : Nat → Nat) (interfere : DBState → DBState) : BuyOutcome × DBState :=
  let config := s.settings
  if config.enabled then
    match ensure_rotation s now rand with
    | (none, s1) => (.noActiveRotation, s1)
    | (some rot, s1) =>
      match find_offer s1 rot.id item_id with
      | none => (.unknownOffer, s1)
      | some (entry, item) =>
        let pr := get_or_create_player s1 uid
        let remaining := cooldown_remaining pr.2 uid config.purchase_cooldown now
        if 0 < remaining then (.onCooldown (now + remaining), pr.2)
        else if can_afford pr.1 entry.price_snapshot then
          buy_tx (interfere pr.2) uid entry item now server_id
        else (.insufficientFunds, pr.2)
  else (.disabled, s)

/-! ### Autocomplete -/

/-- Lower-cased character list of a string (`str.lower()`). -/
def toLowerChars (s : String) : List Char := s.data.map Char.toLower

/-- Whether the first list is an initial segment of the second. -/
def charsLeadMatch : List Char → List Char → Bool
  | [], _ => true
  | _ :: _, [] => false
  | a :: as, b :: bs => a == b && charsLeadMatch as bs

/-- Python's substring test `needle in haystack` over character lists. -/
def charsContain (needle : List Char) : List Char → Bool
  | [] => charsLeadMatch needle []
  | b :: bs => charsLeadMatch needle (b :: bs) || charsContain needle bs

/-- `ball.country` of the linked `Ball` row. -/
def ball_country (s : DBState) (bid : Nat) : String :=
  ((s.balls.find? (fun b => b.id == bid)).map Ball.country).getD ""

/-- `MerchantItem.label`: `display_name or ball.country` (empty string is
falsy in Python). -/
def item_label (s : DBState) (it : MerchantItem) : String :=
  if it.display_name = "" then ball_country s it.ball_id else it.display_name

/-- An `app_commands.Choice` of the autocomplete answer. -/
structure Choice where
  name : String
  value : Nat
deriving DecidableEq, Repr

/-- The choice built for one joined rotation entry:
`f"{label} • {price_snapshot} {currency}"` with the entry id as value. -/
def mk_choice (s : DBState) (currency : String)
    (pr : MerchantRotationItem × MerchantItem) : Choice :=
  { name := item_label s pr.2 ++ " • " ++ toString pr.1.price_snapshot ++ " " ++ currency,
    value := pr.1.id }

/-- `Merchant.autocomplete_item`: read-only projection over the active
rotation's entries — empty answer when no rotation is active, substring
filter on the lower-cased label when a query is given, at most 25
choices.  Every database operation it performs is a read, so it returns
the state unchanged. -/
def autocomplete_item (s : DBState) (now : Int) (current : String)
    (currency : String) : List Choice × DBState :=
  match get_active_rotation s now with
  | none => ([], s)
  | some rot =>
    let entries := rotation_items s rot.id
    let selected :=
      if current ≠ "" then
        entries.filter
          (fun pr => charsContain (toLowerChars current) (toLowerChars (item_label s pr.2)))
      else entries
    ((selected.take 25).map (mk_choice s currency), s)

/-! ### Serialized concurrent purchases -/

/-- N simultaneous purchase attempts by one player on one offer: all have
passed the pre-checks against the initial state (none of their effects
were committed yet), and the `select_for_update` row lock serializes
their transactional phases, which therefore run back to back.  As the
attempts are identical, the serialization order does not matter. -/
def run_attempts (uid : Nat) (entry : MerchantRotationItem) (item : MerchantItem)
    (now : Int) (server_id : Nat) : Nat → DBState → List BuyOutcome × DBState
  | 0, s => ([], s)
  | n + 1, s =>
    let r1 := buy_tx s uid entry item now server_id
    let r2 := run_attempts uid entry item now server_id n r1.2
    (r1.1 :: r2.1, r2.2)

/-! ### Concrete states used to instantiate the theorems -/

/-- A populated state: one enabled item, one active rotation with one
entry, one player with one past purchase. -/
def exampleState : DBState :=
  { settings := { enabled := true, rotation_minutes := 1440, items_per_rotation := 3,
                  purchase_cooldown_seconds := 3600, last_rotation_at := none }
    balls := [{ id := 1, country := "Alpha" }]
    items := [{ id := 1, display_name := "", price := 100, weight := 1,
                enabled := true, ball_id := 1, special_id := none }]
    rotations := [{ id := 10, starts_at := 0, ends_at := 86400 }]
    rotationItems := [{ id := 11, rotation_id := 10, item_id := 1,
                        price_snapshot := 100, created_at := 0 }]
    purchases := [{ id := 12, player_id := 5, rotation_item_id := 11, created_at := 1000 }]
    players := [{ discord_id := 5, balance := 150 }]
    ballInstances := []
    next_id := 13 }

/-- `exampleState` with the merchant disabled. -/
def disabledState : DBState :=
  { exampleState with settings := { exampleState.settings with enabled := false } }

/-- Enabled configuration, empty item pool, only an expired rotation. -/
def emptyPoolState : DBState :=
  { settings := { enabled := true, rotation_minutes := 1440, items_per_rotation := 3,
                  purchase_cooldown_seconds := 3600, last_rotation_at := none }
    balls := [], items := []
    rotations := [{ id := 1, starts_at := 0, ends_at := 50 }]
    rotationItems := [], purchases := [], players := [], ballInstances := []
    next_id := 2 }

/-- One enabled item and `rotation_minutes = 0`, a value the Django
field type permits. -/
def zeroMinState : DBState :=
  { settings := { enabled := true, rotation_minutes := 0, items_per_rotation := 3,
                  purchase_cooldown_seconds := 3600, last_rotation_at := none }
    balls := [{ id := 1, country := "Alpha" }]
    items := [{ id := 1, display_name := "", price := 100, weight := 1,
                enabled := true, ball_id := 1, special_id := none }]
    rotations := [], rotationItems := [], purchases := [], players := [],
    ballInstances := []
    next_id := 1 }

/-- `zeroMinState` with `rotation_minutes = 1`. -/
def oneMinState : DBState :=
  { zeroMinState with settings := { zeroMinState.settings with rotation_minutes := 1 } }

/-- The enabled item row of the small states above. -/
def sampleItem : MerchantItem :=
  { id := 1, display_name := "", price := 100, weight := 1,
    enabled := true, ball_id := 1, special_id := none }

/-- A player whose whole balance equals the positive offer price. -/
def drainState : DBState :=
  { zeroMinState with players := [{ discord_id := 7, balance := 120 }] }

/-- An offer priced at the whole balance of `drainState`'s player. -/
def drainEntry : MerchantRotationItem :=
  { id := 21, rotation_id := 20, item_id := 1, price_snapshot := 120, created_at := 0 }

/-- A zero-balance player: the offer priced at their entire balance
costs nothing. -/
def freeState : DBState :=
  { zeroMinState with players := [{ discord_id := 7, balance := 0 }] }

/-- The zero-priced offer of `freeState`. -/
def freeEntry : MerchantRotationItem :=
  { id := 21, rotation_id := 20, item_id := 1, price_snapshot := 0, created_at := 0 }

/-! ### Helper lemmas: weighted sampling -/

theorem totalWeight_cons (a : MerchantItem) (rest : List MerchantItem) :
    totalWeight (a :: rest) = itemWeight a + totalWeight rest := by
  simp [totalWeight]

theorem totalWeight_pos (a : MerchantItem) (rest : List MerchantItem) :
    0 < totalWeight (a :: rest) := by
  rw [totalWeight_cons]
  have h : 1 ≤ itemWeight a := le_max_left 1 a.weight
  omega

theorem pickByWeight_mem {pool : List MerchantItem} {r : Nat} {i : MerchantItem}
    (h : pickByWeight pool r = some i) : i ∈ pool := by
  induction pool generalizing r with
  | nil => simp [pickByWeight] at h
  | cons a rest ih =>
    rw [pickByWeight] at h
    split at h
    · injection h with h
      subst h
      exact List.mem_cons_self a rest
    · exact List.mem_cons_of_mem a (ih h)

theorem pickByWeight_isSome {pool : List MerchantItem} {r : Nat}
    (h : r < totalWeight pool) : (pickByWeight pool r).isSome := by
  induction pool generalizing r with
  | nil => simp [totalWeight] at h
  | cons a rest ih =>
    rw [pickByWeight]
    split
    · rfl
    · rename_i hge
      apply ih
      rw [totalWeight_cons] at h
      omega

theorem weighted_sample_length (rand : Nat → Nat) :
    ∀ (k step : Nat) (pool : List MerchantItem),
    (weighted_sample rand step pool k).length = min k pool.length := by
  intro k
  induction k with
  | zero =>
    intro step pool
    cases pool <;> simp [weighted_sample]
  | succ k ih =>
    intro step pool
    cases pool with
    | nil => simp [weighted_sample]
    | cons a rest =>
      rw [weighted_sample]
      have htw := totalWeight_pos a rest
      have hr : rand step % totalWeight (a :: rest) < totalWeight (a :: rest) :=
        Nat.mod_lt _ htw
      obtain ⟨pick, hp⟩ := Option.isSome_iff_exists.mp (pickByWeight_isSome hr)
      rw [hp]
      simp only [List.length_cons]
      rw [ih]
      have hmem := pickByWeight_mem hp
      have hlen := List.length_erase_add_one hmem
      simp only [List.length_cons] at hlen ⊢
      omega

theorem weighted_sample_subset (rand : Nat → Nat) :
    ∀ (k step : Nat) (pool : List MerchantItem) (x : MerchantItem),
    x ∈ weighted_sample rand step pool k → x ∈ pool := by
  intro k
  induction k with
  | zero =>
    intro step pool x h
    cases pool <;> simp [weighted_sample] at h
  | succ k ih =>
    intro step pool x h
    cases pool with
    | nil => simp [weighted_sample] at h
    | cons a rest =>
      rw [weighted_sample] at h
      cases hp : pickByWeight (a :: rest) (rand step % totalWeight (a :: rest)) with
      | none => rw [hp] at h; simp at h
      | some pick =>
        rw [hp] at h
        rcases List.mem_cons.mp h with h1 | h2
        · subst h1
          exact pickByWeight_mem hp
        · exact List.erase_subset pick (a :: rest) (ih (step + 1) _ x h2)

theorem weighted_sample_nodup (rand : Nat → Nat) :
    ∀ (k step : Nat) (pool : List MerchantItem), pool.Nodup →
    (weighted_sample rand step pool k).Nodup := by
  intro k
  induction k with
  | zero =>
    intro step pool _
    cases pool <;> simp [weighted_sample]
  | succ k ih =>
    intro step pool hnd
    cases pool with
    | nil => simp [weighted_sample]
    | cons a rest =>
      rw [weighted_sample]
      cases hp : pickByWeight (a :: rest) (rand step % totalWeight (a :: rest)) with
      | none => simp
      | some pick =>
        rw [List.nodup_cons]
        constructor
        · intro hmem
          have hin := weighted_sample_subset rand k (step + 1) _ pick hmem
          exact hnd.not_mem_erase hin
        · exact ih (step + 1) _ (hnd.erase pick)

/-! ### Helper lemmas: entry construction and sorting -/

theorem mkRotationEntries_length (rid : Nat) (now : Int) :
    ∀ (nid : Nat) (sel : List MerchantItem),
    (mkRotationEntries rid now nid sel).length = sel.length := by
  intro nid sel
  induction sel generalizing nid with
  | nil => simp [mkRotationEntries]
  | cons a rest ih => simp [mkRotationEntries, ih]

theorem mkRotationEntries_map_item (rid : Nat) (now : Int) :
    ∀ (nid : Nat) (sel : List MerchantItem),
    (mkRotationEntries rid now nid sel).map MerchantRotationItem.item_id
      = sel.map MerchantItem.id := by
  intro nid sel
  induction sel generalizing nid with
  | nil => simp [mkRotationEntries]
  | cons a rest ih => simp [mkRotationEntries, ih]

theorem mkRotationEntries_mem (rid : Nat) (now : Int) :
    ∀ (nid : Nat) (sel : List MerchantItem) (e : MerchantRotationItem),
    e ∈ mkRotationEntries rid now nid sel →
    e.rotation_id = rid ∧ ∃ it ∈ sel, e.item_id = it.id ∧ e.price_snapshot = it.price := by
  intro nid sel
  induction sel generalizing nid with
  | nil => intro e h; simp [mkRotationEntries] at h
  | cons a rest ih =>
    intro e h
    rw [mkRotationEntries] at h
    rcases List.mem_cons.mp h with h1 | h2
    · subst h1
      exact ⟨rfl, a, List.mem_cons_self a rest, rfl, rfl⟩
    · obtain ⟨he, it, hit, h3, h4⟩ := ih (nid + 1) e h2
      exact ⟨he, it, List.mem_cons_of_mem a hit, h3, h4⟩

theorem insertById_perm (x : MerchantItem) (l : List MerchantItem) :
    (insertById x l).Perm (x :: l) := by
  induction l with
  | nil => exact List.Perm.refl _
  | cons y ys ih =>
    rw [insertById]
    split
    · exact List.Perm.refl _
    · exact List.Perm.trans (List.Perm.cons y ih) (List.Perm.swap x y ys)

theorem sortById_perm (l : List MerchantItem) : (sortById l).Perm l := by
  induction l with
  | nil => exact List.Perm.refl _
  | cons a rest ih =>
    have h1 : sortById (a :: rest) = insertById a (sortById rest) := rfl
    rw [h1]
    exact List.Perm.trans (insertById_perm a _) (List.Perm.cons a ih)

/-! ### Helper lemmas: active rotation and latest purchase -/

theorem bestRotation_mem :
    ∀ {l : List MerchantRotation} {r : MerchantRotation},
    bestRotation l = some r → r ∈ l := by
  intro l
  induction l with
  | nil => intro r h; simp [bestRotation] at h
  | cons a rest ih =>
    intro r h
    rw [bestRotation] at h
    cases hb : bestRotation rest with
    | none =>
      rw [hb] at h
      injection h with h
      subst h
      exact List.mem_cons_self _ _
    | some b =>
      rw [hb] at h
      injection h with h
      by_cases hc : a.starts_at < b.starts_at
      · rw [if_pos hc] at h
        subst h
        exact List.mem_cons_of_mem _ (ih hb)
      · rw [if_neg hc] at h
        subst h
        exact List.mem_cons_self _ _

theorem bestRotation_isSome (a : MerchantRotation) (l : List MerchantRotation) :
    (bestRotation (a :: l)).isSome := by
  rw [bestRotation]
  cases bestRotation l <;> simp

theorem get_active_some {s : DBState} {now : Int} {rot : MerchantRotation}
    (h : get_active_rotation s now = some rot) :
    rot ∈ s.rotations ∧ now < rot.ends_at := by
  have hm := bestRotation_mem h
  have h2 := List.mem_filter.mp hm
  exact ⟨h2.1, by simpa using h2.2⟩

theorem get_active_isSome {s : DBState} {now : Int} {r : MerchantRotation}
    (hr : r ∈ s.rotations) (hact : now < r.ends_at) :
    (get_active_rotation s now).isSome := by
  have hmem : r ∈ s.rotations.filter (fun r => decide (now < r.ends_at)) :=
    List.mem_filter.mpr ⟨hr, by simpa using hact⟩
  unfold get_active_rotation
  cases hfl : s.rotations.filter (fun r => decide (now < r.ends_at)) with
  | nil => rw [hfl] at hmem; simp at hmem
  | cons a rest => exact bestRotation_isSome a rest

/-! ### Helper lemmas: state preservation of the rotation engine -/

theorem create_preserves (s : DBState) (cfg : MerchantSettings) (now : Int)
    (rand : Nat → Nat) :
    (create_rotation s cfg now rand).2.purchases = s.purchases ∧
    (create_rotation s cfg now rand).2.ballInstances = s.ballInstances ∧
    (create_rotation s cfg now rand).2.players = s.players ∧
    (create_rotation s cfg now rand).2.items = s.items := by
  unfold create_rotation
  cases sortById (s.items.filter (fun i => i.enabled)) <;> simp

theorem ensure_preserves (s : DBState) (now : Int) (rand : Nat → Nat) :
    (ensure_rotation s now rand).2.purchases = s.purchases ∧
    (ensure_rotation s now rand).2.ballInstances = s.ballInstances ∧
    (ensure_rotation s now rand).2.players = s.players ∧
    (ensure_rotation s now rand).2.items = s.items := by
  unfold ensure_rotation
  by_cases hen : s.settings.enabled = true
  · simp only [hen, if_true]
    cases get_active_rotation s now with
    | none => exact create_preserves s s.settings now rand
    | some rot =>
      by_cases hlt : now < rot.ends_at
      · simp [hlt]
      · simp only [hlt, if_false]
        exact create_preserves s s.settings now rand
  · simp [hen]

/-! ### Helper lemmas: players, balances, debits -/

theorem balance_players {s1 s2 : DBState} (h : s1.players = s2.players) (u : Nat) :
    balance_of s1 u = balance_of s2 u := by
  unfold balance_of find_player
  rw [h]

theorem goc_tables (s : DBState) (uid : Nat) :
    (get_or_create_player s uid).2.purchases = s.purchases ∧
    (get_or_create_player s uid).2.ballInstances = s.ballInstances ∧
    (get_or_create_player s uid).2.rotationItems = s.rotationItems ∧
    (get_or_create_player s uid).2.settings = s.settings := by
  unfold get_or_create_player
  cases find_player s uid <;> simp

theorem goc_of_found {s : DBState} {uid : Nat} {pl : Player}
    (h : find_player s uid = some pl) : get_or_create_player s uid = (pl, s) := by
  unfold get_or_create_player
  rw [h]

theorem goc_find (s : DBState) (uid : Nat) :
    find_player (get_or_create_player s uid).2 uid = some (get_or_create_player s uid).1 := by
  unfold get_or_create_player
  cases hf : find_player s uid with
  | some p => simpa using hf
  | none =>
    unfold find_player at hf ⊢
    simp only
    rw [List.find?_append, hf]
    simp

theorem goc_balance_self (s : DBState) (uid : Nat) :
    balance_of (get_or_create_player s uid).2 uid = ((get_or_create_player s uid).1).balance := by
  unfold balance_of
  rw [goc_find]
  rfl

theorem goc_balance_all (s : DBState) (uid u : Nat) :
    balance_of (get_or_create_player s uid).2 u = balance_of s u := by
  unfold get_or_create_player
  cases hf : find_player s uid with
  | some p => simp
  | none =>
    unfold balance_of find_player
    unfold find_player at hf
    simp only
    rw [List.find?_append]
    by_cases hu : uid = u
    · subst hu
      rw [hf]
      simp
    · have hne : (({ discord_id := uid, balance := 0 } : Player).discord_id == u) = false := by
        simpa using hu
      simp [List.find?, hne]

theorem find_map_debit (l : List Player) (uid : Nat) (price0 : Nat) :
    (l.map (fun p =>
        if p.discord_id == uid then { p with balance := p.balance - (price0 : Int) } else p)).find?
        (fun p => p.discord_id == uid)
      = (l.find? (fun p => p.discord_id == uid)).map
          (fun p => if p.discord_id == uid then { p with balance := p.balance - (price0 : Int) } else p) := by
  induction l with
  | nil => rfl
  | cons a rest ih =>
    by_cases ha : (a.discord_id == uid) = true
    · have ha2 : a.discord_id = uid := by simpa using ha
      simp [List.find?, ha, ha2]
    · simp only [List.map_cons, List.find?]
      rw [if_neg (by simpa using ha)]
      simp only [ha]
      simpa [ha] using ih

theorem rm_tables (s : DBState) (uid : Nat) (price0 : Nat) :
    (remove_money s uid price0).purchases = s.purchases ∧
    (remove_money s uid price0).ballInstances = s.ballInstances ∧
    (remove_money s uid price0).next_id = s.next_id := ⟨rfl, rfl, rfl⟩

theorem rm_balance_self {s : DBState} {uid : Nat} {pl : Player}
    (h : find_player s uid = some pl) (price0 : Nat) :
    balance_of (remove_money s uid price0) uid = balance_of s uid - (price0 : Int) := by
  unfold find_player at h
  unfold balance_of find_player remove_money
  simp only
  rw [find_map_debit, h]
  have hp := List.find?_some h
  have hp2 : pl.discord_id = uid := by simpa using hp
  simp [hp2]

/-! ### Characterization of rotation creation on a non-empty pool -/

theorem create_rotation_cons {s : DBState} {cfg : MerchantSettings} {now : Int}
    {rand : Nat → Nat} {it : MerchantItem} {rest : List MerchantItem}
    (hsp : sortById (s.items.filter (fun i => i.enabled)) = it :: rest) :
    create_rotation s cfg now rand =
      (some { id := s.next_id, starts_at := now, ends_at := now + cfg.rotation_delta },
       { s with
         settings := { s.settings with last_rotation_at := some now }
         rotations := s.rotations
           ++ [{ id := s.next_id, starts_at := now, ends_at := now + cfg.rotation_delta }]
         rotationItems := s.rotationItems
           ++ mkRotationEntries s.next_id now (s.next_id + 1)
                (weighted_sample rand 0 (it :: rest)
                  (min cfg.items_per_rotation (it :: rest).length))
         next_id := s.next_id + 1
           + (weighted_sample rand 0 (it :: rest)
                (min cfg.items_per_rotation (it :: rest).length)).length }) := by
  unfold create_rotation
  rw [hsp]

/-- C2: for every enabled configuration and every non-empty pool of
enabled item templates (with distinct template ids, as guaranteed by
primary keys), `create_rotation` creates a rotation with exactly
`min(items_per_rotation, poolSize)` entries, no template appearing in
more than one entry, and each entry's `price_snapshot` equal to its
template's price at creation time. -/
theorem merchant_c2 (s : DBState) (now : Int) (rand : Nat → Nat)
    (hen : s.settings.enabled = true)
    (hpool : s.items.filter (fun i => i.enabled) ≠ [])
    (hids : ((s.items.filter (fun i => i.enabled)).map MerchantItem.id).Nodup) :
    ∃ rot entries s1,
      create_rotation s s.settings now rand = (some rot, s1) ∧
      s1.rotationItems = s.rotationItems ++ entries ∧
      entries.length
        = min s.settings.items_per_rotation (s.items.filter (fun i => i.enabled)).length ∧
      (entries.map MerchantRotationItem.item_id).Nodup ∧
      ∀ e ∈ entries, e.rotation_id = rot.id ∧
        ∃ it ∈ s.items.filter (fun i => i.enabled),
          e.item_id = it.id ∧ e.price_snapshot = it.price := by
  have hperm := sortById_perm (s.items.filter (fun i => i.enabled))
  cases hsp : sortById (s.items.filter (fun i => i.enabled)) with
  | nil =>
    rw [hsp] at hperm
    exact absurd ((List.Perm.nil_eq hperm).symm) hpool
  | cons it rest =>
    rw [hsp] at hperm
    have hpoolids : ((it :: rest).map MerchantItem.id).Nodup :=
      ((hperm.map MerchantItem.id).nodup_iff).mpr hids
    have hpoolnd : (it :: rest).Nodup := List.Nodup.of_map _ hpoolids
    have hinj := List.inj_on_of_nodup_map hpoolids
    refine ⟨_, _, _, create_rotation_cons hsp, rfl, ?_, ?_, ?_⟩
    · rw [mkRotationEntries_length, weighted_sample_length]
      have hlen := hperm.length_eq
      omega
    · rw [mkRotationEntries_map_item]
      refine List.Nodup.map_on ?_ (weighted_sample_nodup rand _ 0 _ hpoolnd)
      intro x hx y hy hxy
      exact hinj (weighted_sample_subset rand _ 0 _ x hx)
        (weighted_sample_subset rand _ 0 _ y hy) hxy
    · intro e he
      obtain ⟨hrid, it2, hit2, hid2, hpr2⟩ := mkRotationEntries_mem _ _ _ _ e he
      exact ⟨hrid, it2, hperm.subset (weighted_sample_subset rand _ 0 _ it2 hit2),
        hid2, hpr2⟩

/-- C4: when the feature is enabled and an unexpired rotation exists, two
consecutive `ensure_rotation` calls (with arbitrary random draws) return
the same rotation and leave the state exactly as it was: no new rotation
rows, entries, or configuration change. -/
theorem merchant_c4 (s : DBState) (now : Int) (rand rand2 : Nat → Nat)
    (r : MerchantRotation)
    (hen : s.settings.enabled = true)
    (hr : r ∈ s.rotations) (hact : now < r.ends_at) :
    ∃ rot, ensure_rotation s now rand = (some rot, s) ∧
      ensure_rotation s now rand2 = (some rot, s) := by
  obtain ⟨rot, hrot⟩ := Option.isSome_iff_exists.mp (get_active_isSome hr hact)
  have hend := (get_active_some hrot).2
  refine ⟨rot, ?_, ?_⟩ <;>
    simp [ensure_rotation, hen, hrot, hend]

/-- C6: with `enabled = false`, `ensure_rotation` returns none and leaves
the state untouched (no rotation rows, no entries, no configuration
update), regardless of the rest of the state. -/
theorem merchant_c6 (s : DBState) (now : Int) (rand : Nat → Nat)
    (hdis : s.settings.enabled = false) :
    ensure_rotation s now rand = (none, s) := by
  simp [ensure_rotation, hdis]

/-- C7: enabled configuration, empty enabled pool, no active rotation:
both `create_rotation` and `ensure_rotation` return none and leave the
state untouched (recoverable no-op). -/
theorem merchant_c7 (s : DBState) (now : Int) (rand : Nat → Nat)
    (hen : s.settings.enabled = true)
    (hpool : s.items.filter (fun i => i.enabled) = [])
    (hnoact : ∀ r ∈ s.rotations, r.ends_at ≤ now) :
    create_rotation s s.settings now rand = (none, s) ∧
    ensure_rotation s now rand = (none, s) := by
  have hcr : create_rotation s s.settings now rand = (none, s) := by
    unfold create_rotation
    rw [hpool]
    rfl
  have hga : get_active_rotation s now = none := by
    unfold get_active_rotation
    have hfl : s.rotations.filter (fun r => decide (now < r.ends_at)) = [] := by
      rw [List.filter_eq_nil_iff]
      intro r hr
      simpa using not_lt.mpr (hnoact r hr)
    rw [hfl]
    rfl
  exact ⟨hcr, by simp [ensure_rotation, hen, hga, hcr]⟩

/-- C5 (amended): every rotation created by `create_rotation` satisfies
`starts_at < ends_at` whenever the configured `rotation_minutes` is
positive.  (The unamended claim fails at `rotation_minutes = 0`, a value
Django's `PositiveIntegerField` permits; see the counterexample.) -/
theorem merchant_c5 (s : DBState) (cfg : MerchantSettings) (now : Int)
    (rand : Nat → Nat) (rot : MerchantRotation) (s1 : DBState)
    (h : create_rotation s cfg now rand = (some rot, s1))
    (hpos : 0 < cfg.rotation_minutes) :
    rot.starts_at < rot.ends_at := by
  cases hsp : sortById (s.items.filter (fun i => i.enabled)) with
  | nil =>
    unfold create_rotation at h
    rw [hsp] at h
    simp at h
  | cons it rest =>
    rw [create_rotation_cons hsp] at h
    rw [Prod.mk.injEq] at h
    obtain ⟨h1, _⟩ := h
    injection h1 with h1
    subst h1
    show now < now + cfg.rotation_delta
    unfold MerchantSettings.rotation_delta
    omega

/-! ### Helper lemmas: branch equations of buy -/

theorem buy_disabled {s : DBState} {uid item_id server_id : Nat} {now : Int}
    {rand : Nat → Nat} {f : DBState → DBState}
    (h : s.settings.enabled = false) :
    buy s uid item_id now server_id rand f = (.disabled, s) := by
  simp [buy, h]

theorem buy_no_rot {s s1 : DBState} {uid item_id server_id : Nat} {now : Int}
    {rand : Nat → Nat} {f : DBState → DBState}
    (hen : s.settings.enabled = true)
    (her : ensure_rotation s now rand = (none, s1)) :
    buy s uid item_id now server_id rand f = (.noActiveRotation, s1) := by
  simp [buy, hen, her]

theorem buy_unknown {s s1 : DBState} {uid item_id server_id : Nat} {now : Int}
    {rand : Nat → Nat} {f : DBState → DBState} {rot : MerchantRotation}
    (hen : s.settings.enabled = true)
    (her : ensure_rotation s now rand = (some rot, s1))
    (hfo : find_offer s1 rot.id item_id = none) :
    buy s uid item_id now server_id rand f = (.unknownOffer, s1) := by
  simp [buy, hen, her, hfo]

theorem buy_past_offer {s s1 : DBState} {uid item_id server_id : Nat} {now : Int}
    {rand : Nat → Nat} {f : DBState → DBState} {rot : MerchantRotation}
    {entry : MerchantRotationItem} {item : MerchantItem}
    (hen : s.settings.enabled = true)
    (her : ensure_rotation s now rand = (some rot, s1))
    (hfo : find_offer s1 rot.id item_id = some (entry, item)) :
    buy s uid item_id now server_id rand f =
      (if 0 < cooldown_remaining (get_or_create_player s1 uid).2 uid
            s.settings.purchase_cooldown now then
        (.onCooldown (now + cooldown_remaining (get_or_create_player s1 uid).2 uid
            s.settings.purchase_cooldown now),
         (get_or_create_player s1 uid).2)
      else if can_afford (get_or_create_player s1 uid).1 entry.price_snapshot then
        buy_tx (f (get_or_create_player s1 uid).2) uid entry item now server_id
      else (.insufficientFunds, (get_or_create_player s1 uid).2)) := by
  simp [buy, hen, her, hfo]

theorem buy_id_cases (s : DBState) (uid item_id server_id : Nat) (now : Int)
    (rand : Nat → Nat) :
    ((buy s uid item_id now server_id rand id).1.isSuccess = false ∧
     (buy s uid item_id now server_id rand id).2.purchases = s.purchases ∧
     (buy s uid item_id now server_id rand id).2.ballInstances = s.ballInstances ∧
     ∀ u, balance_of (buy s uid item_id now server_id rand id).2 u = balance_of s u) ∨
    (∃ i price rcd inst,
     (buy s uid item_id now server_id rand id).1 = .success i ∧
     (buy s uid item_id now server_id rand id).2.purchases = s.purchases ++ [rcd] ∧
     rcd.player_id = uid ∧
     (buy s uid item_id now server_id rand id).2.ballInstances = s.ballInstances ++ [inst] ∧
     inst.player_id = uid ∧ inst.id = i ∧
     balance_of (buy s uid item_id now server_id rand id).2 uid
       = balance_of s uid - (price : Int)) := by
  by_cases hen : s.settings.enabled = true
  · rcases her : ensure_rotation s now rand with ⟨o, s1⟩
    have hpres := ensure_preserves s now rand
    rw [her] at hpres
    obtain ⟨hp1, hp2, hp3, _⟩ := hpres
    replace hp1 : s1.purchases = s.purchases := hp1
    replace hp2 : s1.ballInstances = s.ballInstances := hp2
    replace hp3 : s1.players = s.players := hp3
    cases o with
    | none =>
      left
      rw [buy_no_rot hen her]
      exact ⟨rfl, hp1, hp2, fun u => balance_players hp3 u⟩
    | some rot =>
      cases hfo : find_offer s1 rot.id item_id with
      | none =>
        left
        rw [buy_unknown hen her hfo]
        exact ⟨rfl, hp1, hp2, fun u => balance_players hp3 u⟩
      | some pr0 =>
        obtain ⟨entry, item⟩ := pr0
        obtain ⟨hg1, hg2, _, _⟩ := goc_tables s1 uid
        have hball : ∀ u, balance_of (get_or_create_player s1 uid).2 u = balance_of s u :=
          fun u => (goc_balance_all s1 uid u).trans (balance_players hp3 u)
        rw [buy_past_offer hen her hfo]
        by_cases hcd : 0 < cooldown_remaining (get_or_create_player s1 uid).2 uid
            s.settings.purchase_cooldown now
        · left
          rw [if_pos hcd]
          exact ⟨rfl, hg1.trans hp1, hg2.trans hp2, hball⟩
        · rw [if_neg hcd]
          by_cases hca : can_afford (get_or_create_player s1 uid).1 entry.price_snapshot = true
          · right
            rw [if_pos hca]
            have haff : (entry.price_snapshot : Int) ≤ (get_or_create_player s1 uid).1.balance := by
              unfold can_afford at hca
              exact of_decide_eq_true hca
            have hbal : balance_of (get_or_create_player s1 uid).2 uid
                = (get_or_create_player s1 uid).1.balance := goc_balance_self s1 uid
            have hnl : ¬ balance_of (id (get_or_create_player s1 uid).2) uid
                < (entry.price_snapshot : Int) := by
              simp only [id_eq]
              rw [hbal]
              exact not_lt.mpr haff
            unfold buy_tx
            rw [if_neg hnl]
            simp only [id_eq]
            refine ⟨(remove_money (get_or_create_player s1 uid).2 uid
                entry.price_snapshot).next_id,
              entry.price_snapshot,
              ⟨(remove_money (get_or_create_player s1 uid).2 uid
                  entry.price_snapshot).next_id + 1, uid, entry.id, now⟩,
              ⟨(remove_money (get_or_create_player s1 uid).2 uid
                  entry.price_snapshot).next_id,
                item.ball_id, uid, item.special_id, true, server_id⟩,
              rfl, ?_, rfl, ?_, rfl, rfl, ?_⟩
            · simp [remove_money, hg1, hp1]
            · simp [remove_money, hg2, hp2]
            · have hfp : find_player (get_or_create_player s1 uid).2 uid
                  = some (get_or_create_player s1 uid).1 := goc_find s1 uid
              have hrm := rm_balance_self hfp entry.price_snapshot
              calc balance_of _ uid
                  = balance_of (remove_money (get_or_create_player s1 uid).2 uid
                      entry.price_snapshot) uid := balance_players rfl uid
                _ = balance_of (get_or_create_player s1 uid).2 uid
                      - (entry.price_snapshot : Int) := hrm
                _ = balance_of s uid - (entry.price_snapshot : Int) := by
                      rw [hball uid]
          · left
            rw [if_neg hca]
            exact ⟨rfl, hg1.trans hp1, hg2.trans hp2, hball⟩
  · left
    rw [buy_disabled (by simpa using hen)]
    exact ⟨rfl, rfl, rfl, fun u => rfl⟩

theorem buy_tx_not_cooldown (s : DBState) (uid : Nat) (entry : MerchantRotationItem)
    (item : MerchantItem) (now : Int) (server_id : Nat) :
    ((buy_tx s uid entry item now server_id).1).isOnCooldown = false := by
  unfold buy_tx
  by_cases h : balance_of s uid < (entry.price_snapshot : Int) <;>
    simp [h, BuyOutcome.isOnCooldown]

/-- C1: the effects of a purchase (debit, mint, record) happen either all
together or not at all; in particular, when the in-transaction
affordability re-check fails after the optimistic pre-check passed, the
purchase returns the insufficient-funds outcome and leaves balance,
instance ownership, and purchase history exactly as the transaction
found them. -/
theorem merchant_c1 (s : DBState) (uid item_id server_id : Nat) (now : Int)
    (rand : Nat → Nat) :
    (((buy s uid item_id now server_id rand id).1.isSuccess = false →
        (buy s uid item_id now server_id rand id).2.purchases = s.purchases ∧
        (buy s uid item_id now server_id rand id).2.ballInstances = s.ballInstances ∧
        ∀ u, balance_of (buy s uid item_id now server_id rand id).2 u = balance_of s u) ∧
     (∀ i, (buy s uid item_id now server_id rand id).1 = .success i →
        ∃ price rcd inst,
          (buy s uid item_id now server_id rand id).2.purchases = s.purchases ++ [rcd] ∧
          rcd.player_id = uid ∧
          (buy s uid item_id now server_id rand id).2.ballInstances
            = s.ballInstances ++ [inst] ∧
          inst.player_id = uid ∧ inst.id = i ∧
          balance_of (buy s uid item_id now server_id rand id).2 uid
            = balance_of s uid - (price : Int))) ∧
    (∀ (f : DBState → DBState) (rot : MerchantRotation) (s1 : DBState)
       (entry : MerchantRotationItem) (item : MerchantItem) (pl : Player),
      s.settings.enabled = true →
      ensure_rotation s now rand = (some rot, s1) →
      find_offer s1 rot.id item_id = some (entry, item) →
      find_player s1 uid = some pl →
      cooldown_remaining s1 uid s.settings.purchase_cooldown now = 0 →
      (entry.price_snapshot : Int) ≤ pl.balance →
      balance_of (f s1) uid < (entry.price_snapshot : Int) →
      buy s uid item_id now server_id rand f = (.insufficientFunds, f s1)) := by
  refine ⟨⟨?_, ?_⟩, ?_⟩
  · intro hns
    rcases buy_id_cases s uid item_id server_id now rand with h | h
    · exact ⟨h.2.1, h.2.2.1, h.2.2.2⟩
    · obtain ⟨i, _, _, _, hsucc, _⟩ := h
      rw [hsucc] at hns
      simp [BuyOutcome.isSuccess] at hns
  · intro i hsucc
    rcases buy_id_cases s uid item_id server_id now rand with h | h
    · rw [hsucc] at h
      simp [BuyOutcome.isSuccess] at h
    · obtain ⟨j, price, rcd, inst, hs2, hpur, hrp, hbi, hip, hii, hbal⟩ := h
      rw [hsucc] at hs2
      injection hs2 with hj
      exact ⟨price, rcd, inst, hpur, hrp, hbi, hip, by rw [hii, hj], hbal⟩
  · intro f rot s1 entry item pl hen her hfo hpl hcd haff hrace
    rw [buy_past_offer hen her hfo, goc_of_found hpl]
    simp only
    rw [hcd]
    rw [if_neg (lt_irrefl (0 : Int))]
    have hca : can_afford pl entry.price_snapshot = true := by
      unfold can_afford
      exact decide_eq_true haff
    rw [hca]
    simp only [if_true]
    unfold buy_tx
    rw [if_pos hrace]

/-- C3: given a most recent purchase at time `T`, a purchase attempt at
time `now` is rejected with the on-cooldown outcome iff
`now < T + cooldown`; concretely, with a 3600 s cooldown the remaining
time is positive at `T + 1800` and zero at `T + 3601`. -/
theorem merchant_c3 (s : DBState) (uid item_id server_id : Nat) (now : Int)
    (rand : Nat → Nat) (f : DBState → DBState) (rot : MerchantRotation)
    (s1 : DBState) (entry : MerchantRotationItem) (item : MerchantItem)
    (pl : Player) (p : MerchantPurchase)
    (hen : s.settings.enabled = true)
    (her : ensure_rotation s now rand = (some rot, s1))
    (hfo : find_offer s1 rot.id item_id = some (entry, item))
    (hpl : find_player s1 uid = some pl)
    (hlast : latest_purchase s1 uid = some p) :
    ((buy s uid item_id now server_id rand f).1.isOnCooldown = true
        ↔ now < p.created_at + s.settings.purchase_cooldown) ∧
    0 < cooldown_remaining s1 uid 3600 (p.created_at + 1800) ∧
    cooldown_remaining s1 uid 3600 (p.created_at + 3601) = 0 := by
  have hcr : ∀ (c t : Int), cooldown_remaining s1 uid c t = max (p.created_at + c - t) 0 := by
    intro c t
    unfold cooldown_remaining
    rw [hlast]
  refine ⟨?_, ?_, ?_⟩
  · rw [buy_past_offer hen her hfo, goc_of_found hpl]
    simp only
    by_cases hlt : now < p.created_at + s.settings.purchase_cooldown
    · have hpos : 0 < cooldown_remaining s1 uid s.settings.purchase_cooldown now := by
        rw [hcr]
        omega
      rw [if_pos hpos]
      simpa [BuyOutcome.isOnCooldown] using hlt
    · have hz : ¬ 0 < cooldown_remaining s1 uid s.settings.purchase_cooldown now := by
        rw [hcr]
        omega
      rw [if_neg hz]
      by_cases hca : can_afford pl entry.price_snapshot = true
      · rw [hca]
        simp only [if_true]
        simpa [buy_tx_not_cooldown] using hlt
      · rw [Bool.not_eq_true] at hca
        rw [hca]
        simpa [BuyOutcome.isOnCooldown] using hlt
  · rw [hcr]
    omega
  · rw [hcr]
    omega

/-- C10: a player with no purchase records has a cooldown remainder of
exactly zero (a first-time buyer is never rejected for cooldown), and the
remainder is never negative for any player and cooldown. -/
theorem merchant_c10 (s : DBState) (uid : Nat) (cooldown now : Int) :
    (s.purchases.filter (fun p => p.player_id == uid) = [] →
      cooldown_remaining s uid cooldown now = 0) ∧
    0 ≤ cooldown_remaining s uid cooldown now := by
  constructor
  · intro h
    unfold cooldown_remaining latest_purchase
    rw [h]
    rfl
  · unfold cooldown_remaining
    cases latest_purchase s uid with
    | none => exact le_refl 0
    | some p => exact le_max_right _ 0

/-! ### Helper lemmas: serialized purchase attempts -/

theorem run_attempts_fail (uid : Nat) (entry : MerchantRotationItem)
    (item : MerchantItem) (now : Int) (server_id : Nat) :
    ∀ (n : Nat) (s : DBState), balance_of s uid < (entry.price_snapshot : Int) →
    run_attempts uid entry item now server_id n s
      = (List.replicate n .insufficientFunds, s) := by
  intro n
  induction n with
  | zero => intro s _; rfl
  | succ n ih =>
    intro s h
    have htx : buy_tx s uid entry item now server_id = (.insufficientFunds, s) := by
      unfold buy_tx
      rw [if_pos h]
    rw [run_attempts, htx]
    simp [ih s h, List.replicate_succ]

theorem countP_replicate {α : Type} (p : α → Bool) (x : α) (m : Nat) :
    (List.replicate m x).countP p = if p x then m else 0 := by
  induction m with
  | zero => simp
  | succ m ih =>
    rw [List.replicate_succ, List.countP_cons, ih]
    by_cases hx : p x <;> simp [hx]

/-- C9 (amended): N serialized purchase attempts by one player on an
offer priced exactly at their whole balance end with exactly one success,
N−1 insufficient-funds outcomes, and a final balance of exactly 0 —
provided the price is positive.  (With a zero price every attempt
succeeds; see the counterexample.) -/
theorem merchant_c9 (s : DBState) (uid server_id : Nat)
    (entry : MerchantRotationItem) (item : MerchantItem) (now : Int) (n : Nat)
    (hbal : balance_of s uid = (entry.price_snapshot : Int))
    (hpos : 0 < entry.price_snapshot)
    (hn : 1 ≤ n) :
    (run_attempts uid entry item now server_id n s).1.countP BuyOutcome.isSuccess = 1 ∧
    (run_attempts uid entry item now server_id n s).1.countP
        (fun o => o == BuyOutcome.insufficientFunds) = n - 1 ∧
    balance_of (run_attempts uid entry item now server_id n s).2 uid = 0 := by
  cases n with
  | zero => omega
  | succ m =>
    cases hf : find_player s uid with
    | none =>
      exfalso
      have h0 : balance_of s uid = 0 := by
        unfold balance_of
        rw [hf]
        rfl
      rw [h0] at hbal
      omega
    | some pl =>
      have hnl : ¬ balance_of s uid < (entry.price_snapshot : Int) := by
        rw [hbal]
        exact lt_irrefl _
      have ho : (buy_tx s uid entry item now server_id).1
          = .success (remove_money s uid entry.price_snapshot).next_id := by
        unfold buy_tx
        rw [if_neg hnl]
      have hb1 : balance_of (buy_tx s uid entry item now server_id).2 uid = 0 := by
        unfold buy_tx
        rw [if_neg hnl]
        calc balance_of _ uid
            = balance_of (remove_money s uid entry.price_snapshot) uid :=
              balance_players rfl uid
          _ = balance_of s uid - (entry.price_snapshot : Int) := rm_balance_self hf _
          _ = 0 := by rw [hbal]; ring
      have hlt0 : balance_of (buy_tx s uid entry item now server_id).2 uid
          < (entry.price_snapshot : Int) := by
        rw [hb1]
        exact_mod_cast hpos
      have hfail := run_attempts_fail uid entry item now server_id m _ hlt0
      have hra : run_attempts uid entry item now server_id (m + 1) s
          = ((buy_tx s uid entry item now server_id).1
              :: (run_attempts uid entry item now server_id m
                  (buy_tx s uid entry item now server_id).2).1,
             (run_attempts uid entry item now server_id m
                (buy_tx s uid entry item now server_id).2).2) := rfl
      rw [hra, hfail, ho]
      refine ⟨?_, ?_, hb1⟩
      · rw [List.countP_cons, countP_replicate]
        simp [BuyOutcome.isSuccess]
      · rw [List.countP_cons, countP_replicate]
        simp

/-- C8: the autocomplete operation returns at most 25 choices, only
built from entries of the active rotation whose lower-cased label
contains the lower-cased query (all entries when the query is empty),
and leaves the state unchanged — it uses the read-only active-rotation
lookup, so no rotation is ever created by it. -/
theorem merchant_c8 (s : DBState) (now : Int) (current currency : String) :
    (autocomplete_item s now current currency).2 = s ∧
    (autocomplete_item s now current currency).1.length ≤ 25 ∧
    (get_active_rotation s now = none →
      (autocomplete_item s now current currency).1 = []) ∧
    ∀ rot, get_active_rotation s now = some rot →
      (∀ c ∈ (autocomplete_item s now current currency).1,
        ∃ pr ∈ rotation_items s rot.id, c = mk_choice s currency pr ∧
          (current ≠ "" →
            charsContain (toLowerChars current) (toLowerChars (item_label s pr.2)) = true)) ∧
      (current = "" → (autocomplete_item s now current currency).1
        = ((rotation_items s rot.id).take 25).map (mk_choice s currency)) := by
  unfold autocomplete_item
  cases hga : get_active_rotation s now with
  | none => simp
  | some rot0 =>
    refine ⟨rfl, ?_, ?_, ?_⟩
    · rw [List.length_map]
      exact List.length_take_le 25 _
    · intro h
      simp at h
    · intro rot hrot
      injection hrot with he
      subst he
      constructor
      · intro c hc
        obtain ⟨pr, hpr, hcm⟩ := List.mem_map.mp hc
        have hpt := List.mem_of_mem_take hpr
        by_cases hcur : current = ""
        · simp only [hcur, ne_eq, not_true_eq_false, if_false] at hpt
          exact ⟨pr, hpt, hcm.symm, fun hne => absurd hcur hne⟩
        · rw [if_pos hcur] at hpt
          obtain ⟨hmem, hpred⟩ := List.mem_filter.mp hpt
          exact ⟨pr, hmem, hcm.symm, fun _ => hpred⟩
      · intro hcur
        simp [hcur]

/-! ### Counterexamples -/

/-- C5 counterexample: with `rotation_minutes = 0` — a value Django's
`PositiveIntegerField` permits — `create_rotation` produces a rotation
with `ends_at = starts_at`, violating `ends_at > starts_at`. -/
theorem merchant_c5_cex :
    (create_rotation zeroMinState zeroMinState.settings 0 (fun _ => 0)).1
      = some { id := 1, starts_at := 0, ends_at := 0 } ∧
    ¬ ({ id := 1, starts_at := 0, ends_at := 0 } : MerchantRotation).starts_at
      < ({ id := 1, starts_at := 0, ends_at := 0 } : MerchantRotation).ends_at := by
  constructor
  · decide
  · decide

/-- C9 counterexample: with a zero-priced offer equal to the player's
entire (zero) balance, two serialized attempts both succeed — not
exactly one. -/
theorem merchant_c9_cex :
    balance_of freeState 7 = (freeEntry.price_snapshot : Int) ∧
    (run_attempts 7 freeEntry sampleItem 0 0 2 freeState).1.countP
      BuyOutcome.isSuccess = 2 ∧
    ¬ (run_attempts 7 freeEntry sampleItem 0 0 2 freeState).1.countP
      BuyOutcome.isSuccess = 1 := by
  refine ⟨?_, ?_, ?_⟩ <;> decide

/-! ### Witnesses -/

theorem merchant_c1_witness :
    buy exampleState 5 11 7200 99 (fun _ => 0) (fun t => remove_money t 5 100)
      = (.insufficientFunds, remove_money exampleState 5 100) :=
  (merchant_c1 exampleState 5 11 99 7200 (fun _ => 0)).2
    (fun t => remove_money t 5 100)
    { id := 10, starts_at := 0, ends_at := 86400 }
    exampleState
    { id := 11, rotation_id := 10, item_id := 1, price_snapshot := 100, created_at := 0 }
    sampleItem
    { discord_id := 5, balance := 150 }
    rfl (by decide) (by decide) (by decide) (by decide) (by decide) (by decide)

theorem merchant_c2_witness :
    ∃ rot entries s1,
      create_rotation exampleState exampleState.settings 0 (fun _ => 0)
        = (some rot, s1) ∧
      s1.rotationItems = exampleState.rotationItems ++ entries ∧
      entries.length = min exampleState.settings.items_per_rotation
        (exampleState.items.filter (fun i => i.enabled)).length ∧
      (entries.map MerchantRotationItem.item_id).Nodup ∧
      ∀ e ∈ entries, e.rotation_id = rot.id ∧
        ∃ it ∈ exampleState.items.filter (fun i => i.enabled),
          e.item_id = it.id ∧ e.price_snapshot = it.price :=
  merchant_c2 exampleState 0 (fun _ => 0) rfl (by decide) (by decide)

theorem merchant_c3_witness :
    ((buy exampleState 5 11 7200 99 (fun _ => 0) id).1.isOnCooldown = true
        ↔ (7200 : Int) < 1000 + exampleState.settings.purchase_cooldown) ∧
    0 < cooldown_remaining exampleState 5 3600 (1000 + 1800) ∧
    cooldown_remaining exampleState 5 3600 (1000 + 3601) = 0 :=
  merchant_c3 exampleState 5 11 99 7200 (fun _ => 0) id
    { id := 10, starts_at := 0, ends_at := 86400 }
    exampleState
    { id := 11, rotation_id := 10, item_id := 1, price_snapshot := 100, created_at := 0 }
    sampleItem
    { discord_id := 5, balance := 150 }
    { id := 12, player_id := 5, rotation_item_id := 11, created_at := 1000 }
    rfl (by decide) (by decide) (by decide) (by decide)

theorem merchant_c4_witness :
    ∃ rot, ensure_rotation exampleState 7200 (fun _ => 0) = (some rot, exampleState) ∧
      ensure_rotation exampleState 7200 (fun _ => 1) = (some rot, exampleState) :=
  merchant_c4 exampleState 7200 (fun _ => 0) (fun _ => 1)
    { id := 10, starts_at := 0, ends_at := 86400 } rfl (by decide) (by decide)

theorem merchant_c5_witness :
    ({ id := 1, starts_at := 0, ends_at := 60 } : MerchantRotation).starts_at
      < ({ id := 1, starts_at := 0, ends_at := 60 } : MerchantRotation).ends_at :=
  merchant_c5 oneMinState oneMinState.settings 0 (fun _ => 0)
    { id := 1, starts_at := 0, ends_at := 60 }
    (create_rotation oneMinState oneMinState.settings 0 (fun _ => 0)).2
    (by decide) (by decide)

theorem merchant_c6_witness :
    ensure_rotation disabledState 0 (fun _ => 0) = (none, disabledState) :=
  merchant_c6 disabledState 0 (fun _ => 0) rfl

theorem merchant_c7_witness :
    create_rotation emptyPoolState emptyPoolState.settings 100 (fun _ => 0)
      = (none, emptyPoolState) ∧
    ensure_rotation emptyPoolState 100 (fun _ => 0) = (none, emptyPoolState) :=
  merchant_c7 emptyPoolState 100 (fun _ => 0) rfl rfl (by decide)

theorem merchant_c8_witness :
    (autocomplete_item exampleState 7200 "" "coins").1.length ≤ 25 ∧
    (autocomplete_item exampleState 7200 "" "coins").2 = exampleState :=
  ⟨(merchant_c8 exampleState 7200 "" "coins").2.1,
   (merchant_c8 exampleState 7200 "" "coins").1⟩

theorem merchant_c9_witness :
    (run_attempts 7 drainEntry sampleItem 0 0 3 drainState).1.countP
      BuyOutcome.isSuccess = 1 ∧
    (run_attempts 7 drainEntry sampleItem 0 0 3 drainState).1.countP
      (fun o => o == BuyOutcome.insufficientFunds) = 3 - 1 ∧
    balance_of (run_attempts 7 drainEntry sampleItem 0 0 3 drainState).2 7 = 0 :=
  merchant_c9 drainState 7 0 drainEntry sampleItem 0 3 (by decide) (by decide) (by decide)

theorem merchant_c10_witness :
    cooldown_remaining emptyPoolState 1 3600 0 = 0 ∧
    0 ≤ cooldown_remaining emptyPoolState 1 3600 0 :=
  ⟨(merchant_c10 emptyPoolState 1 3600 0).1 rfl,
   (merchant_c10 emptyPoolState 1 3600 0).2⟩

end MarketDex
